import Mathlib

/-!
Shallow embedding of `src/co_routines.cpp`.

The C++ program drives two coroutines from a dispatch loop in `main`:
`acclimate` (yields a `message` after every loop iteration) and `charger`
(runs its loop to completion and `co_return`s one `message`).  The C++
`double` arithmetic is embedded as exact rational arithmetic (`ℚ`); the
literals `0.1`, `0.8`, `0.01`, `94.9` become `1/10`, `4/5`, `1/100`,
`949/10`.

Coroutine semantics captured by the embedding: `initial_suspend` is
`suspend_never`, so constructing a coroutine runs it to the first
`co_yield`, which stores the yielded value in `promise.info`; each later
resumption advances to the yield after the current one.  The embedding
therefore represents `acclimate` by the full (finite) list of values it
yields, and a coroutine in flight by the pair (current `promise.info`,
remaining yields).

The loops are written with an explicit fuel argument (structural
recursion), returning `none` when the fuel runs out with the loop guard
still true; adequacy of the fuel chosen — i.e. termination of the C++
loops — is proved below, not assumed.
-/

namespace CoRoutines

/-- The C++ `enum State { start, cooling, heating, charging, finish, standby }`. -/
inductive State where
  | start
  | cooling
  | heating
  | charging
  | finish
  | standby
deriving DecidableEq

/-- The C++ `struct message { double temperature; double batteryCharge; State state; }`. -/
structure Message where
  temperature : ℚ
  batteryCharge : ℚ
  state : State
deriving DecidableEq

/-- Body of one iteration of the first (cooling) loop of `acclimate`:
`temperature -= 0.1; batteryCharge -= 0.8; state = cooling`. -/
def coolStep (m : Message) : Message :=
  { temperature := m.temperature - 1/10
    batteryCharge := m.batteryCharge - 4/5
    state := State.cooling }

/-- Body of one iteration of the second (heating) loop of `acclimate`:
`temperature += 0.1; batteryCharge -= 0.8; state = heating`. -/
def heatStep (m : Message) : Message :=
  { temperature := m.temperature + 1/10
    batteryCharge := m.batteryCharge - 4/5
    state := State.heating }

/-- Body of one iteration of the loop of `charger`:
`batteryCharge += 0.1; temperature += 0.01` (state untouched). -/
def chargeStep (m : Message) : Message :=
  { temperature := m.temperature + 1/100
    batteryCharge := m.batteryCharge + 1/10
    state := m.state }

/-- The first loop of `acclimate`:
`while (temperature > 20 and batteryCharge > 20) { ...; co_yield info; }`.
Returns the list of yielded messages and the value of `info` on loop exit;
`none` if the fuel ran out with the guard still true. -/
def coolLoop : Nat → Message → Option (List Message × Message)
  | 0, m =>
      if 20 < m.temperature ∧ 20 < m.batteryCharge then none else some ([], m)
  | n + 1, m =>
      if 20 < m.temperature ∧ 20 < m.batteryCharge then
        (coolLoop n (coolStep m)).map fun p => (coolStep m :: p.1, p.2)
      else some ([], m)

/-- The second loop of `acclimate`:
`while (temperature < 18 and batteryCharge > 20) { ...; co_yield info; }`. -/
def heatLoop : Nat → Message → Option (List Message × Message)
  | 0, m =>
      if m.temperature < 18 ∧ 20 < m.batteryCharge then none else some ([], m)
  | n + 1, m =>
      if m.temperature < 18 ∧ 20 < m.batteryCharge then
        (heatLoop n (heatStep m)).map fun p => (heatStep m :: p.1, p.2)
      else some ([], m)

/-- The loop of `charger`: `while (batteryCharge < 94.9) { ... }`;
returns the value of `info` on loop exit. -/
def chargeLoop : Nat → Message → Option Message
  | 0, m => if m.batteryCharge < 949/10 then none else some m
  | n + 1, m =>
      if m.batteryCharge < 949/10 then chargeLoop n (chargeStep m) else some m

/-- Fuel bound for `coolLoop` and `heatLoop`: both loop bodies subtract `4/5`
from `batteryCharge` and both guards require `batteryCharge > 20`, so at most
`(batteryCharge - 20) * 5/4` iterations can happen; `2 * (batteryCharge - 20).num`
is a convenient integer upper bound for that. -/
def coolFuel (m : Message) : Nat := 2 * (m.batteryCharge - 20).num.toNat

/-- Fuel bound for `chargeLoop`: each iteration adds `1/10` to `batteryCharge`
and the guard requires `batteryCharge < 94.9`, so at most
`(94.9 - batteryCharge) * 10` iterations can happen. -/
def chargeFuel (m : Message) : Nat := 10 * (949/10 - m.batteryCharge).num.toNat

/-- The `acclimate` coroutine, as the list of all messages it yields
(in order).  Mirrors the body of `acclimate` in the source: the outer
`if (batteryCharge > 20)`, the two loops in sequence, the trailing
`if (temperature <= 20 or temperature >= 18)` yield of a charging-tagged
message, and the `else` branch that yields once with `state = charging`. -/
def acclimateYields (m : Message) : Option (List Message) :=
  if 20 < m.batteryCharge then
    match coolLoop (coolFuel m) m with
    | none => none
    | some (ys₁, m₁) =>
      match heatLoop (coolFuel m₁) m₁ with
      | none => none
      | some (ys₂, m₂) =>
        some (ys₁ ++ ys₂ ++
          (if m₂.temperature ≤ 20 ∨ 18 ≤ m₂.temperature then
            [{ m₂ with state := State.charging }]
          else []))
  else
    some [{ m with state := State.charging }]

/-- Total version of `acclimateYields` (the fuel is proved adequate below). -/
def acclimateRun (m : Message) : List Message :=
  (acclimateYields m).getD []

/-- The value stored in `promise.info` right after constructing
`acclimate(m)`: since `initial_suspend` is `suspend_never` the coroutine
runs to its first `co_yield` immediately. -/
def firstYield (m : Message) : Message :=
  (acclimateRun m).headD m

/-- The `charger` coroutine run to completion (it has no suspension point
before `co_return`, and `initial_suspend` is `suspend_never`, so
constructing it already produces the final message in `promise.info`). -/
def chargerRun (m : Message) : Message :=
  (chargeLoop (chargeFuel m) m).getD m

/-- The classification performed by `init_values` on the freshly drawn
`(temperature, batteryCharge)` pair (the random draws are parameters here;
in the source they are `rand() % 55` and `rand() % 100`). -/
def init_values (t b : ℚ) : Message :=
  if t < 18 ∧ 20 < b then ⟨t, b, State.heating⟩
  else if 20 < t ∧ 20 < b then ⟨t, b, State.cooling⟩
  else if 20 < b then ⟨t, b, State.finish⟩
  else ⟨t, b, State.charging⟩

/-- State of `main`'s dispatch loop: the controller's current `info`,
the active acclimation coroutine's `promise->info`, and the yields that
coroutine has not produced yet. -/
structure CState where
  info : Message
  ppromise : Message
  pending : List Message
deriving DecidableEq

/-- `handle(); info = promise->info;` — resume the acclimation coroutine
and adopt the yielded message.  When no yields remain, the resumption
runs the coroutine to its final suspend point and `promise->info` keeps
its last value. -/
def resumeStep (s : CState) : CState :=
  match s.pending with
  | [] => { s with info := s.ppromise }
  | y :: ys => { info := y, ppromise := y, pending := ys }

/-- One iteration of the dispatch loop of `main`, switching on
`info.state`.  `d` is the pair of random draws consumed by `init_values`
when the `start` case runs.  Reporting (`std::cout`) is ignored. -/
def controllerStep (d : ℚ × ℚ) (s : CState) : CState :=
  match s.info.state with
  | State.start =>
      let m := init_values d.1 d.2
      let ys := acclimateRun m
      { info := m, ppromise := ys.headD m, pending := ys.tail }
  | State.cooling => resumeStep s
  | State.heating => resumeStep s
  | State.finish => { s with info := { s.info with state := State.start } }
  | State.charging =>
      let c := chargerRun s.info
      if c.temperature < 18 then
        let ys := acclimateRun c
        let y := ys.headD c
        { info := { y with state := State.heating }, ppromise := y, pending := ys.tail }
      else if 20 < c.temperature then
        let ys := acclimateRun c
        { info := { c with state := State.cooling }, ppromise := ys.headD c,
          pending := ys.tail }
      else
        { s with info := { c with state := State.finish } }
  | State.standby => s

/-- Iterate the dispatch loop `n` times, feeding it the draw stream `dr`. -/
def run (dr : ℕ → ℚ × ℚ) : ℕ → CState → CState
  | 0, s => s
  | n + 1, s => run dr n (controllerStep (dr n) s)

/-- No message held by the controller state is tagged `standby`. -/
def noStandby (s : CState) : Prop :=
  s.info.state ≠ State.standby ∧ s.ppromise.state ≠ State.standby ∧
    ∀ y ∈ s.pending, y.state ≠ State.standby

instance (s : CState) : Decidable (noStandby s) := by
  unfold noStandby; infer_instance

/-! ### Termination of the three loops: the chosen fuel is adequate -/

/-- A nonnegative rational is at most its numerator. -/
lemma rat_le_num (q : ℚ) (hq : 0 ≤ q) : q ≤ (q.num : ℚ) := by
  conv_lhs => rw [← Rat.num_div_den q]
  exact div_le_self (by exact_mod_cast Rat.num_nonneg.mpr hq)
    (Nat.one_le_cast.mpr q.pos)

/-- The fuel `coolFuel` dominates the iteration measure of the cooling
(and heating) loop. -/
lemma coolFuel_le (m : Message) :
    (m.batteryCharge - 20) * 5 / 4 ≤ (coolFuel m : ℚ) := by
  rcases le_or_lt m.batteryCharge 20 with h | h
  · have h2 : (0 : ℚ) ≤ (coolFuel m : ℚ) := by positivity
    nlinarith
  · have hq : (0 : ℚ) ≤ m.batteryCharge - 20 := by linarith
    have h1 := rat_le_num _ hq
    have h3 : ((m.batteryCharge - 20).num.toNat : ℤ) = (m.batteryCharge - 20).num :=
      Int.toNat_of_nonneg (Rat.num_nonneg.mpr hq)
    have h4 : (coolFuel m : ℚ) = 2 * (((m.batteryCharge - 20).num.toNat : ℤ) : ℚ) := by
      unfold coolFuel; push_cast; ring
    rw [h4, h3]
    linarith

/-- The fuel `chargeFuel` dominates the iteration measure of the charging loop. -/
lemma chargeFuel_le (m : Message) :
    (949/10 - m.batteryCharge) * 10 ≤ (chargeFuel m : ℚ) := by
  rcases le_or_lt (949/10 : ℚ) m.batteryCharge with h | h
  · have h2 : (0 : ℚ) ≤ (chargeFuel m : ℚ) := by positivity
    nlinarith
  · have hq : (0 : ℚ) ≤ 949/10 - m.batteryCharge := by linarith
    have h1 := rat_le_num _ hq
    have h3 : ((949/10 - m.batteryCharge).num.toNat : ℤ) = (949/10 - m.batteryCharge).num :=
      Int.toNat_of_nonneg (Rat.num_nonneg.mpr hq)
    have h4 : (chargeFuel m : ℚ) =
        10 * (((949/10 - m.batteryCharge).num.toNat : ℤ) : ℚ) := by
      unfold chargeFuel; push_cast; ring
    rw [h4, h3]
    linarith

/-- The cooling loop exits before the fuel runs out whenever the fuel
dominates the measure `(batteryCharge - 20) * 5/4`: each iteration removes
`4/5` from `batteryCharge` while the guard keeps `batteryCharge > 20`. -/
lemma coolLoop_isSome (n : ℕ) :
    ∀ m : Message, (m.batteryCharge - 20) * 5 / 4 ≤ (n : ℚ) →
      (coolLoop n m).isSome := by
  induction n with
  | zero =>
    intro m h
    have hg : ¬(20 < m.temperature ∧ 20 < m.batteryCharge) := by
      rintro ⟨-, hb⟩
      have : (0 : ℚ) < (m.batteryCharge - 20) * 5 / 4 := by nlinarith
      simp only [Nat.cast_zero] at h
      linarith
    simp [coolLoop, hg]
  | succ n ih =>
    intro m h
    by_cases hg : 20 < m.temperature ∧ 20 < m.batteryCharge
    · have hstep : ((coolStep m).batteryCharge - 20) * 5 / 4 ≤ (n : ℚ) := by
        simp only [coolStep]
        push_cast at h
        nlinarith
      obtain ⟨p, hp⟩ := Option.isSome_iff_exists.mp (ih (coolStep m) hstep)
      simp [coolLoop, hg, hp]
    · simp [coolLoop, hg]

/-- Same fuel adequacy for the heating loop (its body removes the same
`4/5` from `batteryCharge` and its guard also keeps `batteryCharge > 20`). -/
lemma heatLoop_isSome (n : ℕ) :
    ∀ m : Message, (m.batteryCharge - 20) * 5 / 4 ≤ (n : ℚ) →
      (heatLoop n m).isSome := by
  induction n with
  | zero =>
    intro m h
    have hg : ¬(m.temperature < 18 ∧ 20 < m.batteryCharge) := by
      rintro ⟨-, hb⟩
      have : (0 : ℚ) < (m.batteryCharge - 20) * 5 / 4 := by nlinarith
      simp only [Nat.cast_zero] at h
      linarith
    simp [heatLoop, hg]
  | succ n ih =>
    intro m h
    by_cases hg : m.temperature < 18 ∧ 20 < m.batteryCharge
    · have hstep : ((heatStep m).batteryCharge - 20) * 5 / 4 ≤ (n : ℚ) := by
        simp only [heatStep]
        push_cast at h
        nlinarith
      obtain ⟨p, hp⟩ := Option.isSome_iff_exists.mp (ih (heatStep m) hstep)
      simp [heatLoop, hg, hp]
    · simp [heatLoop, hg]

/-- The charging loop exits before the fuel runs out whenever the fuel
dominates the measure `(94.9 - batteryCharge) * 10`. -/
lemma chargeLoop_isSome (n : ℕ) :
    ∀ m : Message, (949/10 - m.batteryCharge) * 10 ≤ (n : ℚ) →
      (chargeLoop n m).isSome := by
  induction n with
  | zero =>
    intro m h
    have hg : ¬ m.batteryCharge < 949/10 := by
      intro hb
      have : (0 : ℚ) < (949/10 - m.batteryCharge) * 10 := by nlinarith
      simp only [Nat.cast_zero] at h
      linarith
    simp [chargeLoop, hg]
  | succ n ih =>
    intro m h
    by_cases hg : m.batteryCharge < 949/10
    · have hstep : (949/10 - (chargeStep m).batteryCharge) * 10 ≤ (n : ℚ) := by
        simp only [chargeStep]
        push_cast at h
        nlinarith
      have := ih (chargeStep m) hstep
      simpa [chargeLoop, hg] using this
    · simp [chargeLoop, hg]

/-- On exit the charging loop has preserved `state` and has
`batteryCharge ≥ 94.9` (the negation of its guard). -/
lemma chargeLoop_post (n : ℕ) :
    ∀ m r : Message, chargeLoop n m = some r →
      r.state = m.state ∧ 949/10 ≤ r.batteryCharge := by
  induction n with
  | zero =>
    intro m r h
    by_cases hg : m.batteryCharge < 949/10
    · simp [chargeLoop, hg] at h
    · simp [chargeLoop, hg] at h
      exact ⟨by rw [← h], by rw [← h]; exact not_lt.mp hg⟩
  | succ n ih =>
    intro m r h
    by_cases hg : m.batteryCharge < 949/10
    · simp only [chargeLoop, if_pos hg] at h
      have := ih _ _ h
      exact ⟨this.1.trans rfl, this.2⟩
    · simp [chargeLoop, hg] at h
      exact ⟨by rw [← h], by rw [← h]; exact not_lt.mp hg⟩

/-- `chargerRun` is exactly the (successful) result of the charging loop. -/
lemma chargerRun_some (m : Message) :
    chargeLoop (chargeFuel m) m = some (chargerRun m) := by
  obtain ⟨r, hr⟩ :=
    Option.isSome_iff_exists.mp (chargeLoop_isSome (chargeFuel m) m (chargeFuel_le m))
  simp [chargerRun, hr]

/-- `charger` never writes `state`. -/
lemma chargerRun_state (m : Message) : (chargerRun m).state = m.state :=
  (chargeLoop_post _ _ _ (chargerRun_some m)).1

/-! ### Structure of the yield sequence of `acclimate` -/

/-- When its guard is false at entry, the cooling loop yields nothing. -/
lemma coolLoop_not_guard {m : Message}
    (h : ¬(20 < m.temperature ∧ 20 < m.batteryCharge)) (n : ℕ) :
    coolLoop n m = some ([], m) := by
  cases n <;> simp [coolLoop, h]

/-- When its guard is false at entry, the heating loop yields nothing. -/
lemma heatLoop_not_guard {m : Message}
    (h : ¬(m.temperature < 18 ∧ 20 < m.batteryCharge)) (n : ℕ) :
    heatLoop n m = some ([], m) := by
  cases n <;> simp [heatLoop, h]

/-- Every message yielded by the cooling loop carries `state = cooling`. -/
lemma coolLoop_states (n : ℕ) :
    ∀ m ys f, coolLoop n m = some (ys, f) → ∀ y ∈ ys, y.state = State.cooling := by
  induction n with
  | zero =>
    intro m ys f h
    by_cases hg : 20 < m.temperature ∧ 20 < m.batteryCharge
    · simp [coolLoop, hg] at h
    · rw [coolLoop_not_guard hg] at h
      injection h with h'
      injection h' with hys hf
      rw [← hys]
      intro y hy
      simp at hy
  | succ n ih =>
    intro m ys f h
    by_cases hg : 20 < m.temperature ∧ 20 < m.batteryCharge
    · simp only [coolLoop, if_pos hg, Option.map_eq_some'] at h
      obtain ⟨⟨p1, p2⟩, hp, heq⟩ := h
      injection heq with h1 h2
      rw [← h1]
      intro y hy
      rcases List.mem_cons.mp hy with rfl | hy'
      · rfl
      · exact ih (coolStep m) p1 p2 hp y hy'
    · rw [coolLoop_not_guard hg] at h
      injection h with h'
      injection h' with hys hf
      rw [← hys]
      intro y hy
      simp at hy

/-- Every message yielded by the heating loop carries `state = heating`. -/
lemma heatLoop_states (n : ℕ) :
    ∀ m ys f, heatLoop n m = some (ys, f) → ∀ y ∈ ys, y.state = State.heating := by
  induction n with
  | zero =>
    intro m ys f h
    by_cases hg : m.temperature < 18 ∧ 20 < m.batteryCharge
    · simp [heatLoop, hg] at h
    · rw [heatLoop_not_guard hg] at h
      injection h with h'
      injection h' with hys hf
      rw [← hys]
      intro y hy
      simp at hy
  | succ n ih =>
    intro m ys f h
    by_cases hg : m.temperature < 18 ∧ 20 < m.batteryCharge
    · simp only [heatLoop, if_pos hg, Option.map_eq_some'] at h
      obtain ⟨⟨p1, p2⟩, hp, heq⟩ := h
      injection heq with h1 h2
      rw [← h1]
      intro y hy
      rcases List.mem_cons.mp hy with rfl | hy'
      · rfl
      · exact ih (heatStep m) p1 p2 hp y hy'
    · rw [heatLoop_not_guard hg] at h
      injection h with h'
      injection h' with hys hf
      rw [← hys]
      intro y hy
      simp at hy

/-- Successful run of `acclimate` when `batteryCharge > 20` at entry: the
two loops exit, and the trailing guard
`temperature <= 20 or temperature >= 18` (a tautology over a total order)
appends one charging-tagged yield. -/
lemma acclimateYields_some (m : Message) (h : 20 < m.batteryCharge) :
    ∃ ys₁ m₁ ys₂ m₂,
      coolLoop (coolFuel m) m = some (ys₁, m₁) ∧
      heatLoop (coolFuel m₁) m₁ = some (ys₂, m₂) ∧
      acclimateYields m =
        some (ys₁ ++ ys₂ ++ [{ m₂ with state := State.charging }]) := by
  obtain ⟨⟨ys₁, m₁⟩, h1⟩ :=
    Option.isSome_iff_exists.mp (coolLoop_isSome (coolFuel m) m (coolFuel_le m))
  obtain ⟨⟨ys₂, m₂⟩, h2⟩ :=
    Option.isSome_iff_exists.mp (heatLoop_isSome (coolFuel m₁) m₁ (coolFuel_le m₁))
  refine ⟨ys₁, m₁, ys₂, m₂, h1, h2, ?_⟩
  have hguard : m₂.temperature ≤ 20 ∨ 18 ≤ m₂.temperature := by
    rcases le_or_lt m₂.temperature 20 with hc | hc
    · exact Or.inl hc
    · exact Or.inr (by linarith)
  simp only [acclimateYields, if_pos h, h1, h2, if_pos hguard]

/-- With `batteryCharge > 20` the fuel is positive. -/
lemma coolFuel_pos (m : Message) (h : 20 < m.batteryCharge) :
    ∃ k, coolFuel m = k + 1 := by
  have hq : (0 : ℚ) < m.batteryCharge - 20 := by linarith
  have hnum : 0 < (m.batteryCharge - 20).num := Rat.num_pos.mpr hq
  have : 0 < coolFuel m := by unfold coolFuel; omega
  exact ⟨coolFuel m - 1, by omega⟩

/-- If the inner call succeeds, one guarded iteration of the cooling loop
prepends `coolStep m` to the yields. -/
lemma coolLoop_cons (n : ℕ) (m : Message)
    (hg : 20 < m.temperature ∧ 20 < m.batteryCharge)
    {p : List Message × Message} (hp : coolLoop n (coolStep m) = some p) :
    coolLoop (n + 1) m = some (coolStep m :: p.1, p.2) := by
  simp [coolLoop, hg, hp]

/-- If the inner call succeeds, one guarded iteration of the heating loop
prepends `heatStep m` to the yields. -/
lemma heatLoop_cons (n : ℕ) (m : Message)
    (hg : m.temperature < 18 ∧ 20 < m.batteryCharge)
    {p : List Message × Message} (hp : heatLoop n (heatStep m) = some p) :
    heatLoop (n + 1) m = some (heatStep m :: p.1, p.2) := by
  simp [heatLoop, hg, hp]

/-- With `batteryCharge > 20` and `temperature > 20` the first yield of
`acclimate` is `coolStep m`. -/
lemma acclimate_head_cool (m : Message)
    (hb : 20 < m.batteryCharge) (ht : 20 < m.temperature) :
    ∃ ys, acclimateYields m = some (coolStep m :: ys) := by
  obtain ⟨ys₁, m₁, ys₂, m₂, h1, h2, h3⟩ := acclimateYields_some m hb
  obtain ⟨k, hk⟩ := coolFuel_pos m hb
  have hmeas : ((coolStep m).batteryCharge - 20) * 5 / 4 ≤ (k : ℚ) := by
    have := coolFuel_le m
    rw [hk] at this
    simp only [coolStep]
    push_cast at this ⊢
    nlinarith
  obtain ⟨p, hp⟩ := Option.isSome_iff_exists.mp (coolLoop_isSome k (coolStep m) hmeas)
  have hcons := coolLoop_cons k m ⟨ht, hb⟩ hp
  rw [← hk] at hcons
  rw [h1] at hcons
  injection hcons with hcons'
  injection hcons' with hys hm
  rw [hys] at h3
  exact ⟨p.1 ++ ys₂ ++ [{ m₂ with state := State.charging }], by
    simpa using h3⟩

/-- With `batteryCharge > 20` and `temperature < 18` the first yield of
`acclimate` is `heatStep m` (the cooling loop is skipped). -/
lemma acclimate_head_heat (m : Message)
    (hb : 20 < m.batteryCharge) (ht : m.temperature < 18) :
    ∃ ys, acclimateYields m = some (heatStep m :: ys) := by
  obtain ⟨ys₁, m₁, ys₂, m₂, h1, h2, h3⟩ := acclimateYields_some m hb
  have hskip : coolLoop (coolFuel m) m = some ([], m) :=
    coolLoop_not_guard (by rintro ⟨ht', -⟩; linarith) _
  rw [hskip] at h1
  injection h1 with h1'
  injection h1' with hys₁ hm₁
  obtain ⟨k, hk⟩ := coolFuel_pos m₁ (by rw [← hm₁]; exact hb)
  have hmeas : ((heatStep m₁).batteryCharge - 20) * 5 / 4 ≤ (k : ℚ) := by
    have := coolFuel_le m₁
    rw [hk] at this
    simp only [heatStep]
    push_cast at this ⊢
    nlinarith
  obtain ⟨p, hp⟩ := Option.isSome_iff_exists.mp (heatLoop_isSome k (heatStep m₁) hmeas)
  have hcons := heatLoop_cons k m₁ (by rw [← hm₁]; exact ⟨ht, hb⟩) hp
  rw [← hk] at hcons
  rw [h2] at hcons
  injection hcons with hcons'
  injection hcons' with hys hm
  rw [← hys₁, hys, ← hm₁] at h3
  exact ⟨p.1 ++ [{ m₂ with state := State.charging }], by simpa using h3⟩

/-- `acclimate` always produces a yield list (its loops terminate). -/
lemma acclimateYields_isSome (m : Message) :
    ∃ ys, acclimateYields m = some ys := by
  by_cases hb : 20 < m.batteryCharge
  · obtain ⟨ys₁, m₁, ys₂, m₂, -, -, h3⟩ := acclimateYields_some m hb
    exact ⟨_, h3⟩
  · exact ⟨[{ m with state := State.charging }], by simp [acclimateYields, hb]⟩

/-- `acclimateRun` agrees with the (always successful) `acclimateYields`. -/
lemma acclimateRun_eq (m : Message) :
    acclimateYields m = some (acclimateRun m) := by
  obtain ⟨ys, h⟩ := acclimateYields_isSome m
  simp [acclimateRun, h]

/-- Every message yielded by `acclimate` is tagged `cooling`, `heating`
or `charging`. -/
lemma acclimateRun_states (m : Message) :
    ∀ y ∈ acclimateRun m,
      y.state = State.cooling ∨ y.state = State.heating ∨
        y.state = State.charging := by
  by_cases hb : 20 < m.batteryCharge
  · obtain ⟨ys₁, m₁, ys₂, m₂, h1, h2, h3⟩ := acclimateYields_some m hb
    have hrun : acclimateRun m = ys₁ ++ ys₂ ++ [{ m₂ with state := State.charging }] := by
      simp [acclimateRun, h3]
    rw [hrun]
    intro y hy
    rcases List.mem_append.mp hy with hy' | hy'
    · rcases List.mem_append.mp hy' with hy'' | hy''
      · exact Or.inl (coolLoop_states _ _ _ _ h1 y hy'')
      · exact Or.inr (Or.inl (heatLoop_states _ _ _ _ h2 y hy''))
    · have : y = { m₂ with state := State.charging } := by simpa using hy'
      exact Or.inr (Or.inr (by rw [this]))
  · have hrun : acclimateRun m = [{ m with state := State.charging }] := by
      simp [acclimateRun, acclimateYields, hb]
    rw [hrun]
    intro y hy
    have : y = { m with state := State.charging } := by simpa using hy
    exact Or.inr (Or.inr (by rw [this]))

/-- No yield of `acclimate` is tagged `standby`. -/
lemma acclimateRun_ne_standby (m : Message) :
    ∀ y ∈ acclimateRun m, y.state ≠ State.standby := by
  intro y hy
  rcases acclimateRun_states m y hy with h | h | h <;> simp [h]

/-! ### The dispatch loop of `main`, case by case -/

lemma init_values_temperature (t b : ℚ) : (init_values t b).temperature = t := by
  unfold init_values; split_ifs <;> rfl

lemma init_values_batteryCharge (t b : ℚ) : (init_values t b).batteryCharge = b := by
  unfold init_values; split_ifs <;> rfl

lemma init_values_state_ne (t b : ℚ) :
    (init_values t b).state ≠ State.standby := by
  unfold init_values; split_ifs <;> simp

/-- The `start` case of the dispatch loop: redraw and classify via
`init_values`, construct `acclimate` (which runs to its first yield), and
keep `info` as the classified message — the first yield is only stored in
the promise. -/
lemma controllerStep_start_eq (d : ℚ × ℚ) (s : CState)
    (h : s.info.state = State.start) :
    controllerStep d s =
      ⟨init_values d.1 d.2,
       (acclimateRun (init_values d.1 d.2)).headD (init_values d.1 d.2),
       (acclimateRun (init_values d.1 d.2)).tail⟩ := by
  unfold controllerStep
  rw [h]

lemma controllerStep_cooling_eq (d : ℚ × ℚ) (s : CState)
    (h : s.info.state = State.cooling) :
    controllerStep d s = resumeStep s := by
  unfold controllerStep
  rw [h]

lemma controllerStep_heating_eq (d : ℚ × ℚ) (s : CState)
    (h : s.info.state = State.heating) :
    controllerStep d s = resumeStep s := by
  unfold controllerStep
  rw [h]

/-- The `finish` case of the dispatch loop: only `info.state` is written
(set back to `start`); temperature and charge are untouched and the
coroutine slot is untouched. -/
lemma controllerStep_finish_eq (d : ℚ × ℚ) (s : CState)
    (h : s.info.state = State.finish) :
    controllerStep d s = { s with info := { s.info with state := State.start } } := by
  unfold controllerStep
  rw [h]

/-- The `charging` case when the post-charge temperature exceeds 20: a new
`acclimate` coroutine is constructed (its first yield goes to the promise)
but its message is **not** adopted; `info` keeps the post-charge values
with only `state := cooling`. -/
lemma controllerStep_charging_cool (d : ℚ × ℚ) (s : CState)
    (h : s.info.state = State.charging)
    (ht : 20 < (chargerRun s.info).temperature) :
    controllerStep d s =
      ⟨{ chargerRun s.info with state := State.cooling },
       (acclimateRun (chargerRun s.info)).headD (chargerRun s.info),
       (acclimateRun (chargerRun s.info)).tail⟩ := by
  have h18 : ¬ (chargerRun s.info).temperature < 18 := by linarith
  unfold controllerStep
  rw [h]
  simp only [if_neg h18, if_pos ht]

/-- The `charging` case when the post-charge temperature is below 18: a new
`acclimate` coroutine is constructed, its first yield **is** adopted, and
`state` is forced to `heating`. -/
lemma controllerStep_charging_heat (d : ℚ × ℚ) (s : CState)
    (h : s.info.state = State.charging)
    (ht : (chargerRun s.info).temperature < 18) :
    controllerStep d s =
      ⟨{ (acclimateRun (chargerRun s.info)).headD (chargerRun s.info) with
          state := State.heating },
       (acclimateRun (chargerRun s.info)).headD (chargerRun s.info),
       (acclimateRun (chargerRun s.info)).tail⟩ := by
  unfold controllerStep
  rw [h]
  simp only [if_pos ht]

/-- The `charging` case when the post-charge temperature lies in `[18, 20]`:
only `state := finish` is written on the post-charge message. -/
lemma controllerStep_charging_finish (d : ℚ × ℚ) (s : CState)
    (h : s.info.state = State.charging)
    (h1 : ¬ (chargerRun s.info).temperature < 18)
    (h2 : ¬ 20 < (chargerRun s.info).temperature) :
    controllerStep d s = { s with info := { chargerRun s.info with state := State.finish } } := by
  unfold controllerStep
  rw [h]
  simp only [if_neg h1, if_neg h2]

/-! ### The `standby` sentinel is never produced -/

lemma headD_ne_standby {l : List Message} {d : Message}
    (hl : ∀ y ∈ l, y.state ≠ State.standby) (hd : d.state ≠ State.standby) :
    (l.headD d).state ≠ State.standby := by
  cases l with
  | nil => exact hd
  | cons y ys => exact hl y (List.mem_cons_self y ys)

lemma tail_ne_standby {l : List Message}
    (hl : ∀ y ∈ l, y.state ≠ State.standby) :
    ∀ y ∈ l.tail, y.state ≠ State.standby := by
  intro y hy
  exact hl y (List.mem_of_mem_tail hy)

lemma resumeStep_noStandby {s : CState} (h : noStandby s) :
    noStandby (resumeStep s) := by
  obtain ⟨h1, h2, h3⟩ := h
  unfold resumeStep
  cases hp : s.pending with
  | nil => exact ⟨h2, h2, by simp⟩
  | cons y ys =>
    have hy : y.state ≠ State.standby := h3 y (by rw [hp]; exact List.mem_cons_self y ys)
    refine ⟨hy, hy, ?_⟩
    intro z hz
    exact h3 z (by rw [hp]; exact List.mem_cons_of_mem y hz)

/-- No case of the dispatch loop ever writes `state = standby` anywhere. -/
lemma controllerStep_noStandby (d : ℚ × ℚ) (s : CState) (h : noStandby s) :
    noStandby (controllerStep d s) := by
  obtain ⟨h1, h2, h3⟩ := h
  cases hs : s.info.state with
  | start =>
    rw [controllerStep_start_eq d s hs]
    exact ⟨init_values_state_ne d.1 d.2,
      headD_ne_standby (acclimateRun_ne_standby _) (init_values_state_ne d.1 d.2),
      tail_ne_standby (acclimateRun_ne_standby _)⟩
  | cooling => rw [controllerStep_cooling_eq d s hs]; exact resumeStep_noStandby ⟨h1, h2, h3⟩
  | heating => rw [controllerStep_heating_eq d s hs]; exact resumeStep_noStandby ⟨h1, h2, h3⟩
  | finish =>
    rw [controllerStep_finish_eq d s hs]
    exact ⟨by simp, h2, h3⟩
  | charging =>
    have hc : (chargerRun s.info).state ≠ State.standby := by
      rw [chargerRun_state]; exact h1
    by_cases ht : (chargerRun s.info).temperature < 18
    · rw [controllerStep_charging_heat d s hs ht]
      exact ⟨by simp,
        headD_ne_standby (acclimateRun_ne_standby _) hc,
        tail_ne_standby (acclimateRun_ne_standby _)⟩
    · by_cases ht2 : 20 < (chargerRun s.info).temperature
      · rw [controllerStep_charging_cool d s hs ht2]
        exact ⟨by simp,
          headD_ne_standby (acclimateRun_ne_standby _) hc,
          tail_ne_standby (acclimateRun_ne_standby _)⟩
      · rw [controllerStep_charging_finish d s hs ht ht2]
        exact ⟨by simp, h2, h3⟩
  | standby => exact absurd hs h1

/-- Iterating the dispatch loop preserves `noStandby`. -/
lemma run_noStandby (dr : ℕ → ℚ × ℚ) (n : ℕ) :
    ∀ s : CState, noStandby s → noStandby (run dr n s) := by
  induction n with
  | zero => intro s h; exact h
  | succ n ih =>
    intro s h
    exact ih (controllerStep (dr n) s) (controllerStep_noStandby (dr n) s h)

/-! ### Single-iteration unfoldings and fuel-independence of the loops -/

lemma coolLoop_guard_true {n : ℕ} {m : Message}
    (hg : 20 < m.temperature ∧ 20 < m.batteryCharge) :
    coolLoop (n + 1) m =
      (coolLoop n (coolStep m)).map fun p => (coolStep m :: p.1, p.2) := by
  simp [coolLoop, hg]

lemma heatLoop_guard_true {n : ℕ} {m : Message}
    (hg : m.temperature < 18 ∧ 20 < m.batteryCharge) :
    heatLoop (n + 1) m =
      (heatLoop n (heatStep m)).map fun p => (heatStep m :: p.1, p.2) := by
  simp [heatLoop, hg]

lemma chargeLoop_guard_true {n : ℕ} {m : Message}
    (hg : m.batteryCharge < 949/10) :
    chargeLoop (n + 1) m = chargeLoop n (chargeStep m) := by
  simp [chargeLoop, hg]

lemma chargeLoop_guard_false {n : ℕ} {m : Message}
    (hg : ¬ m.batteryCharge < 949/10) :
    chargeLoop n m = some m := by
  cases n <;> simp [chargeLoop, hg]

/-- A successful run of the charging loop does not depend on the fuel. -/
lemma chargeLoop_unique (n : ℕ) :
    ∀ (n' : ℕ) (m r r' : Message),
      chargeLoop n m = some r → chargeLoop n' m = some r' → r = r' := by
  induction n with
  | zero =>
    intro n' m r r' h h'
    by_cases hg : m.batteryCharge < 949/10
    · simp [chargeLoop, hg] at h
    · rw [chargeLoop_guard_false hg] at h h'
      injection h with h1
      injection h' with h2
      rw [← h1, ← h2]
  | succ n ih =>
    intro n' m r r' h h'
    by_cases hg : m.batteryCharge < 949/10
    · rw [chargeLoop_guard_true hg] at h
      cases n' with
      | zero => simp [chargeLoop, hg] at h'
      | succ n' =>
        rw [chargeLoop_guard_true hg] at h'
        exact ih n' (chargeStep m) r r' h h'
    · rw [chargeLoop_guard_false hg] at h h'
      injection h with h1
      injection h' with h2
      rw [← h1, ← h2]

/-- A successful run of the cooling loop does not depend on the fuel. -/
lemma coolLoop_unique (n : ℕ) :
    ∀ (n' : ℕ) (m : Message) (p p' : List Message × Message),
      coolLoop n m = some p → coolLoop n' m = some p' → p = p' := by
  induction n with
  | zero =>
    intro n' m p p' h h'
    by_cases hg : 20 < m.temperature ∧ 20 < m.batteryCharge
    · simp [coolLoop, hg] at h
    · rw [coolLoop_not_guard hg] at h h'
      injection h with h1
      injection h' with h2
      rw [← h1, ← h2]
  | succ n ih =>
    intro n' m p p' h h'
    by_cases hg : 20 < m.temperature ∧ 20 < m.batteryCharge
    · rw [coolLoop_guard_true hg] at h
      cases n' with
      | zero => simp [coolLoop, hg] at h'
      | succ n' =>
        rw [coolLoop_guard_true hg] at h'
        rcases Option.map_eq_some'.mp h with ⟨q, hq, hq2⟩
        rcases Option.map_eq_some'.mp h' with ⟨q', hq', hq2'⟩
        rw [← hq2, ← hq2', ih n' (coolStep m) q q' hq hq']
    · rw [coolLoop_not_guard hg] at h h'
      injection h with h1
      injection h' with h2
      rw [← h1, ← h2]

/-- A successful run of the heating loop does not depend on the fuel. -/
lemma heatLoop_unique (n : ℕ) :
    ∀ (n' : ℕ) (m : Message) (p p' : List Message × Message),
      heatLoop n m = some p → heatLoop n' m = some p' → p = p' := by
  induction n with
  | zero =>
    intro n' m p p' h h'
    by_cases hg : m.temperature < 18 ∧ 20 < m.batteryCharge
    · simp [heatLoop, hg] at h
    · rw [heatLoop_not_guard hg] at h h'
      injection h with h1
      injection h' with h2
      rw [← h1, ← h2]
  | succ n ih =>
    intro n' m p p' h h'
    by_cases hg : m.temperature < 18 ∧ 20 < m.batteryCharge
    · rw [heatLoop_guard_true hg] at h
      cases n' with
      | zero => simp [heatLoop, hg] at h'
      | succ n' =>
        rw [heatLoop_guard_true hg] at h'
        rcases Option.map_eq_some'.mp h with ⟨q, hq, hq2⟩
        rcases Option.map_eq_some'.mp h' with ⟨q', hq', hq2'⟩
        rw [← hq2, ← hq2', ih n' (heatStep m) q q' hq hq']
    · rw [heatLoop_not_guard hg] at h h'
      injection h with h1
      injection h' with h2
      rw [← h1, ← h2]

/-- Compute `chargerRun` from any successful fuel. -/
lemma chargerRun_eq_of {m r : Message} (n : ℕ) (h : chargeLoop n m = some r) :
    chargerRun m = r :=
  chargeLoop_unique (chargeFuel m) n m (chargerRun m) r (chargerRun_some m) h

/-- Closed form of the cooling loop: if the guard holds for the first `j`
iterates and fails at the `j`-th, the loop yields the iterates `1..j` of
`coolStep` and exits at the `j`-th iterate. -/
lemma coolLoop_closed (j : ℕ) :
    ∀ (m : Message) (n : ℕ),
      (∀ i : ℕ, i < j →
        20 < (coolStep^[i] m).temperature ∧ 20 < (coolStep^[i] m).batteryCharge) →
      ¬(20 < (coolStep^[j] m).temperature ∧ 20 < (coolStep^[j] m).batteryCharge) →
      j ≤ n →
      coolLoop n m =
        some ((List.range j).map (fun i => coolStep^[i+1] m), coolStep^[j] m) := by
  induction j with
  | zero =>
    intro m n hg hs hn
    rw [coolLoop_not_guard (by simpa using hs)]
    simp
  | succ j ih =>
    intro m n hg hs hn
    have hg0 : 20 < m.temperature ∧ 20 < m.batteryCharge := by
      simpa using hg 0 (Nat.succ_pos j)
    obtain ⟨n', rfl⟩ : ∃ n', n = n' + 1 := ⟨n - 1, by omega⟩
    rw [coolLoop_guard_true hg0]
    have hg' : ∀ i : ℕ, i < j →
        20 < (coolStep^[i] (coolStep m)).temperature ∧
          20 < (coolStep^[i] (coolStep m)).batteryCharge := by
      intro i hi
      rw [← Function.iterate_succ_apply]
      exact hg (i + 1) (by omega)
    have hs' : ¬(20 < (coolStep^[j] (coolStep m)).temperature ∧
        20 < (coolStep^[j] (coolStep m)).batteryCharge) := by
      rw [← Function.iterate_succ_apply]
      exact hs
    rw [ih (coolStep m) n' hg' hs' (by omega)]
    simp only [Option.map_some', Option.some.injEq, Prod.mk.injEq]
    constructor
    · rw [List.range_succ_eq_map, List.map_cons, List.map_map]
      congr 1
    · rw [Function.iterate_succ_apply]

/-- The `coolStep` iterates of the reading `(25, 50, cooling)`. -/
lemma coolStep_iterate_25_50 (i : ℕ) :
    coolStep^[i] ⟨25, 50, State.cooling⟩ =
      ⟨25 - i/10, 50 - 4*i/5, State.cooling⟩ := by
  induction i with
  | zero => simp
  | succ i ih =>
    rw [Function.iterate_succ_apply', ih]
    simp only [coolStep, Message.mk.injEq]
    refine ⟨?_, ?_, trivial⟩
    · push_cast; ring
    · push_cast; ring

/-- The full yield list of `acclimate` for the reading `(25, 50, cooling)`:
38 cooling yields followed by one charging yield at `(21.2, 19.6)`. -/
lemma acclimateRun_25_50 :
    acclimateRun ⟨25, 50, State.cooling⟩ =
      (List.range 38).map (fun i => coolStep^[i+1] ⟨25, 50, State.cooling⟩) ++
        [⟨106/5, 98/5, State.charging⟩] := by
  have hb : (20 : ℚ) < (⟨25, 50, State.cooling⟩ : Message).batteryCharge := by norm_num
  obtain ⟨ys₁, m₁, ys₂, m₂, h1, h2, h3⟩ :=
    acclimateYields_some ⟨25, 50, State.cooling⟩ hb
  have hg : ∀ i : ℕ, i < 38 →
      20 < (coolStep^[i] (⟨25, 50, State.cooling⟩ : Message)).temperature ∧
        20 < (coolStep^[i] (⟨25, 50, State.cooling⟩ : Message)).batteryCharge := by
    intro i hi
    rw [coolStep_iterate_25_50]
    have hi' : (i : ℚ) ≤ 37 := by exact_mod_cast Nat.lt_succ_iff.mp hi
    constructor
    · show (20 : ℚ) < 25 - i/10
      linarith
    · show (20 : ℚ) < 50 - 4*i/5
      linarith
  have hstop : ¬(20 < (coolStep^[38] (⟨25, 50, State.cooling⟩ : Message)).temperature ∧
      20 < (coolStep^[38] (⟨25, 50, State.cooling⟩ : Message)).batteryCharge) := by
    rw [coolStep_iterate_25_50]
    rintro ⟨-, hcharge⟩
    norm_num at hcharge
  have hfuel : 38 ≤ coolFuel ⟨25, 50, State.cooling⟩ := by
    have hle := coolFuel_le ⟨25, 50, State.cooling⟩
    norm_num at hle
    by_contra hn
    push_neg at hn
    have hcast : (coolFuel ⟨25, 50, State.cooling⟩ : ℚ) ≤ 37 := by
      exact_mod_cast Nat.lt_succ_iff.mp hn
    linarith
  have hclosed := coolLoop_closed 38 ⟨25, 50, State.cooling⟩
    (coolFuel ⟨25, 50, State.cooling⟩) hg hstop hfuel
  have hpair := coolLoop_unique _ _ _ _ _ h1 hclosed
  injection hpair with hys₁ hm₁
  have hm₁' : m₁ = ⟨106/5, 98/5, State.cooling⟩ := by
    rw [hm₁, coolStep_iterate_25_50]
    simp only [Message.mk.injEq]
    norm_num
  have hheat : heatLoop (coolFuel m₁) m₁ = some ([], m₁) := by
    apply heatLoop_not_guard
    rw [hm₁']
    rintro ⟨ht, -⟩
    norm_num at ht
  have hpair2 : (some (ys₂, m₂) : Option (List Message × Message)) = some ([], m₁) :=
    h2.symm.trans hheat
  injection hpair2 with hpq
  injection hpq with hys₂ hm₂
  rw [hys₁, hys₂, hm₂, hm₁'] at h3
  simp only [acclimateRun, h3, Option.getD_some]
  simp

/-- The number of cooling-tagged yields of `acclimate` on `(25, 50, cooling)`
is 38. -/
lemma acclimateRun_25_50_countP :
    (acclimateRun ⟨25, 50, State.cooling⟩).countP
      (fun y => decide (y.state = State.cooling)) = 38 := by
  rw [acclimateRun_25_50, List.countP_append]
  have hall : ∀ a ∈ (List.range 38).map
      (fun i => coolStep^[i+1] (⟨25, 50, State.cooling⟩ : Message)),
      (fun y => decide (y.state = State.cooling)) a = true := by
    intro a ha
    rcases List.mem_map.mp ha with ⟨i, -, rfl⟩
    rw [coolStep_iterate_25_50]
    simp
  rw [List.countP_eq_length.mpr hall, List.length_map, List.length_range]
  rfl

/-- Classification of the draw `(25, 50)`: cooling. -/
lemma init_values_25_50 : init_values 25 50 = ⟨25, 50, State.cooling⟩ := by
  unfold init_values
  rw [if_neg (by norm_num), if_pos (by norm_num)]

/-- First yield of `acclimate` on `(25, 50, cooling)`. -/
lemma firstYield_25_50 :
    firstYield ⟨25, 50, State.cooling⟩ = ⟨249/10, 246/5, State.cooling⟩ := by
  obtain ⟨ys, h⟩ := acclimate_head_cool ⟨25, 50, State.cooling⟩ (by norm_num) (by norm_num)
  have hrun : acclimateRun ⟨25, 50, State.cooling⟩ =
      coolStep ⟨25, 50, State.cooling⟩ :: ys := by
    simp [acclimateRun, h]
  simp only [firstYield, hrun, List.headD_cons]
  norm_num [coolStep, Message.mk.injEq]

/-- `charger` on a reading with `batteryCharge = 94.8` stops after exactly
one iteration, at `batteryCharge = 94.9`. -/
lemma chargerRun_step_94_8 (t : ℚ) (s : State) :
    chargerRun ⟨t, 474/5, s⟩ = ⟨t + 1/100, 949/10, s⟩ := by
  have h1 : chargeLoop 1 ⟨t, 474/5, s⟩ = some ⟨t + 1/100, 949/10, s⟩ := by
    rw [show (1 : ℕ) = 0 + 1 from rfl, chargeLoop_guard_true (by norm_num)]
    have hg : ¬ (chargeStep ⟨t, 474/5, s⟩).batteryCharge < 949/10 := by
      norm_num [chargeStep]
    rw [chargeLoop_guard_false hg]
    congr 1
    norm_num [chargeStep, Message.mk.injEq]
  exact chargerRun_eq_of 1 h1

/-- Value of the step-count formula piece `⌈(25 - 20) / 0.1⌉`. -/
lemma ceil_formula_temp : Nat.ceil (((25 : ℚ) - 20) / (1/10)) = 50 := by
  have h : ((25 : ℚ) - 20) / (1/10) = 50 := by norm_num
  rw [h]
  simp

/-- Value of the step-count formula piece `⌈(50 - 20) / 0.8⌉`. -/
lemma ceil_formula_charge : Nat.ceil (((50 : ℚ) - 20) / (4/5)) = 38 := by
  have h : ((50 : ℚ) - 20) / (4/5) = 75/2 := by norm_num
  rw [h, Nat.ceil_eq_iff (by norm_num)]
  norm_num

/-- Value of the step-count formula piece `⌊(50 - 20) / 0.8⌋`. -/
lemma floor_formula_charge : (Int.floor (((50 : ℚ) - 20) / (4/5))).toNat = 37 := by
  have h : ((50 : ℚ) - 20) / (4/5) = 75/2 := by norm_num
  have h2 : Int.floor ((75 : ℚ)/2) = 37 := by
    rw [Int.floor_eq_iff]
    norm_num
  rw [h, h2]
  rfl

/-! ### The claims -/

/-- Claim C1, counterexample: at draws `(25, 50)` the `start` case leaves
the controller's current reading different from the first reading yielded
by the freshly constructed acclimation coroutine — `case start` in `main`
contains no `info = promise->info`. -/
theorem start_step_adopts_first_yield_cex :
    (controllerStep (25, 50)
        ⟨⟨0, 0, State.start⟩, ⟨0, 0, State.start⟩, []⟩).info ≠
      firstYield (init_values 25 50) := by
  show init_values 25 50 ≠ firstYield (init_values 25 50)
  rw [init_values_25_50, firstYield_25_50]
  norm_num [Message.mk.injEq]

/-- Claim C1, amended: after the `start` step the controller's current
reading is the one classified by `init_values`; the first yield of the new
acclimation coroutine is only stored in the promise slot, not adopted. -/
theorem start_step_keeps_classified_reading (t b : ℚ) (s : CState)
    (h : s.info.state = State.start) :
    (controllerStep (t, b) s).info = init_values t b ∧
    (controllerStep (t, b) s).ppromise = firstYield (init_values t b) := by
  rw [controllerStep_start_eq (t, b) s h]
  exact ⟨rfl, rfl⟩

/-- Witness for `start_step_keeps_classified_reading` at draws `(25, 50)`. -/
theorem start_step_keeps_classified_reading_witness :
    (controllerStep (25, 50)
        ⟨⟨0, 0, State.start⟩, ⟨0, 0, State.start⟩, []⟩).info = init_values 25 50 :=
  (start_step_keeps_classified_reading 25 50
    ⟨⟨0, 0, State.start⟩, ⟨0, 0, State.start⟩, []⟩ rfl).1

/-- Claim C2, counterexample: after a `finish` step from the reading
`(19, 50)` followed by a `start` step with fresh draws `(25, 80)`, the
temperature is the fresh draw 25, not the stale 19 — `init_values`
unconditionally redraws both fields. -/
theorem finish_start_stale_reuse_cex :
    (controllerStep (25, 80) (controllerStep (0, 0)
        ⟨⟨19, 50, State.finish⟩, ⟨19, 50, State.finish⟩, []⟩)).info.temperature ≠ 19 := by
  show (init_values 25 80).temperature ≠ 19
  rw [init_values_temperature]
  norm_num

/-- Claim C2, amended: the `finish` step itself writes only
`state := start` (temperature and charge are untouched at that step), but
the subsequent `start` step redraws both temperature and batteryCharge
from the initial-reading source via `init_values`, so the stale values are
not reused. -/
theorem finish_start_frame (d : ℚ × ℚ) (s : CState)
    (h : s.info.state = State.finish) :
    (controllerStep d s).info.temperature = s.info.temperature ∧
    (controllerStep d s).info.batteryCharge = s.info.batteryCharge ∧
    (controllerStep d s).info.state = State.start ∧
    ∀ t b : ℚ,
      (controllerStep (t, b) (controllerStep d s)).info = init_values t b ∧
      (controllerStep (t, b) (controllerStep d s)).info.temperature = t ∧
      (controllerStep (t, b) (controllerStep d s)).info.batteryCharge = b := by
  rw [controllerStep_finish_eq d s h]
  refine ⟨rfl, rfl, rfl, ?_⟩
  intro t b
  rw [controllerStep_start_eq (t, b)
    { s with info := { s.info with state := State.start } } rfl]
  exact ⟨rfl, init_values_temperature t b, init_values_batteryCharge t b⟩

/-- Witness for `finish_start_frame` at the reading `(19, 50, finish)` and
fresh draws `(25, 80)`. -/
theorem finish_start_frame_witness :
    (controllerStep (0, 0)
        ⟨⟨19, 50, State.finish⟩, ⟨19, 50, State.finish⟩, []⟩).info.temperature = 19 ∧
    (controllerStep (25, 80) (controllerStep (0, 0)
        ⟨⟨19, 50, State.finish⟩, ⟨19, 50, State.finish⟩, []⟩)).info.temperature = 25 := by
  have h := finish_start_frame (0, 0)
    ⟨⟨19, 50, State.finish⟩, ⟨19, 50, State.finish⟩, []⟩ rfl
  exact ⟨h.1, (h.2.2.2 25 80).2.1⟩

/-- Claim C3, confirmed: in the `charging` case, when the post-charge
temperature exceeds 20, the controller constructs a new acclimation
coroutine and sets `state := cooling`, but does not adopt that coroutine's
reading (`info = promise->info` is commented out in this branch): the
resulting `info` is exactly the post-charge reading with only the state
field changed. -/
theorem charging_cooling_branch_frame (d : ℚ × ℚ) (s : CState)
    (hs : s.info.state = State.charging)
    (ht : 20 < (chargerRun s.info).temperature) :
    (controllerStep d s).info = { chargerRun s.info with state := State.cooling } ∧
    (controllerStep d s).info.temperature = (chargerRun s.info).temperature ∧
    (controllerStep d s).info.batteryCharge = (chargerRun s.info).batteryCharge ∧
    (controllerStep d s).ppromise = firstYield (chargerRun s.info) := by
  rw [controllerStep_charging_cool d s hs ht]
  exact ⟨rfl, rfl, rfl, rfl⟩

/-- Witness for `charging_cooling_branch_frame`: charging from
`(30, 94.8)` ends at `(30.01, 94.9)`; the branch fires and `info` is the
post-charge reading tagged cooling. -/
theorem charging_cooling_branch_frame_witness :
    (controllerStep (0, 0)
        ⟨⟨30, 474/5, State.charging⟩, ⟨30, 474/5, State.charging⟩, []⟩).info =
      ⟨3001/100, 949/10, State.cooling⟩ := by
  have hc : chargerRun ⟨30, 474/5, State.charging⟩ =
      ⟨30 + 1/100, 949/10, State.charging⟩ := chargerRun_step_94_8 30 State.charging
  have ht : 20 < (chargerRun (⟨30, 474/5, State.charging⟩ : Message)).temperature := by
    rw [hc]; norm_num
  have h := (charging_cooling_branch_frame (0, 0)
    ⟨⟨30, 474/5, State.charging⟩, ⟨30, 474/5, State.charging⟩, []⟩ rfl ht).1
  rw [h, hc]
  norm_num [Message.mk.injEq]

/-- Claim C4, confirmed: on a reading with `batteryCharge > 20`, the first
yield of `acclimate` lowers temperature by exactly 0.1, lowers
batteryCharge by exactly 0.8 and tags `cooling` when `temperature > 20`;
it raises temperature by exactly 0.1, lowers batteryCharge by exactly 0.8
and tags `heating` when `temperature < 18`. -/
theorem acclimate_first_resumption (m : Message) (hb : 20 < m.batteryCharge) :
    (20 < m.temperature →
      firstYield m = ⟨m.temperature - 1/10, m.batteryCharge - 4/5, State.cooling⟩) ∧
    (m.temperature < 18 →
      firstYield m = ⟨m.temperature + 1/10, m.batteryCharge - 4/5, State.heating⟩) := by
  constructor
  · intro ht
    obtain ⟨ys, h⟩ := acclimate_head_cool m hb ht
    have hrun : acclimateRun m = coolStep m :: ys := by simp [acclimateRun, h]
    simp [firstYield, hrun, coolStep]
  · intro ht
    obtain ⟨ys, h⟩ := acclimate_head_heat m hb ht
    have hrun : acclimateRun m = heatStep m :: ys := by simp [acclimateRun, h]
    simp [firstYield, hrun, heatStep]

/-- Witness for `acclimate_first_resumption` at `(25, 50)` (cooling) and
`(15, 30)` (heating). -/
theorem acclimate_first_resumption_witness :
    firstYield ⟨25, 50, State.start⟩ = ⟨249/10, 246/5, State.cooling⟩ ∧
    firstYield ⟨15, 30, State.start⟩ = ⟨151/10, 146/5, State.heating⟩ := by
  constructor
  · have h := (acclimate_first_resumption ⟨25, 50, State.start⟩ (by norm_num)).1
      (by norm_num)
    rw [h]
    norm_num [Message.mk.injEq]
  · have h := (acclimate_first_resumption ⟨15, 30, State.start⟩ (by norm_num)).2
      (by norm_num)
    rw [h]
    norm_num [Message.mk.injEq]

/-- Claim C5, confirmed: on every input reading, `acclimate` terminates
with a finite, nonempty yield list whose last element is tagged
`charging`. -/
theorem acclimate_terminates (m : Message) :
    ∃ ys, acclimateYields m = some ys ∧ ys ≠ [] ∧
      ∃ r, ys.getLast? = some r ∧ r.state = State.charging := by
  by_cases hb : 20 < m.batteryCharge
  · obtain ⟨ys₁, m₁, ys₂, m₂, h1, h2, h3⟩ := acclimateYields_some m hb
    exact ⟨ys₁ ++ ys₂ ++ [{ m₂ with state := State.charging }], h3, by simp,
      { m₂ with state := State.charging }, List.getLast?_concat _, rfl⟩
  · exact ⟨[{ m with state := State.charging }], by simp [acclimateYields, hb],
      by simp, { m with state := State.charging }, by simp, rfl⟩

/-- Claim C6, confirmed: `charger` terminates on every input, exits with
`batteryCharge ≥ 94.9`, and never writes the state field. -/
theorem charger_terminates_spec (m : Message) :
    chargeLoop (chargeFuel m) m = some (chargerRun m) ∧
    949/10 ≤ (chargerRun m).batteryCharge ∧
    (chargerRun m).state = m.state :=
  ⟨chargerRun_some m,
    (chargeLoop_post (chargeFuel m) m (chargerRun m) (chargerRun_some m)).2,
    chargerRun_state m⟩

/-- Claim C7, confirmed: from `batteryCharge = 94.8` the charging loop runs
exactly one iteration (the result is one application of the loop body),
ending at `batteryCharge = 94.9` with temperature increased by exactly 0.01
and state unchanged. -/
theorem charger_one_iteration (t : ℚ) (s : State) :
    chargerRun ⟨t, 474/5, s⟩ = chargeStep ⟨t, 474/5, s⟩ ∧
    chargerRun ⟨t, 474/5, s⟩ = ⟨t + 1/100, 949/10, s⟩ := by
  have h := chargerRun_step_94_8 t s
  refine ⟨?_, h⟩
  rw [h]
  norm_num [chargeStep, Message.mk.injEq]

/-- Claim C8, counterexample: for the input `(25, 50)` classified cooling,
the number of cooling yields of `acclimate` is 38, not
`min(⌈(25 - 20)/0.1⌉, ⌊(50 - 20)/0.8⌋) = min(50, 37) = 37` as claimed. -/
theorem cooling_step_count_cex :
    (acclimateRun ⟨25, 50, State.cooling⟩).countP
        (fun y => decide (y.state = State.cooling)) ≠
      min (Nat.ceil (((25 : ℚ) - 20) / (1/10)))
        (Int.floor (((50 : ℚ) - 20) / (4/5))).toNat := by
  rw [acclimateRun_25_50_countP, ceil_formula_temp, floor_formula_charge]
  omega

/-- Claim C8, amended: the input `(25, 50)` is classified cooling, the
cooling loop performs exactly
`min(⌈(25 - 20)/0.1⌉, ⌈(50 - 20)/0.8⌉) = min(50, 38) = 38` cooling yields
(the battery bound, with a ceiling rather than a floor, is reached first),
and the following step yields a charging-tagged reading at
`(21.2, 19.6)`. -/
theorem cooling_step_count :
    init_values 25 50 = ⟨25, 50, State.cooling⟩ ∧
    (acclimateRun ⟨25, 50, State.cooling⟩).countP
        (fun y => decide (y.state = State.cooling)) =
      min (Nat.ceil (((25 : ℚ) - 20) / (1/10)))
        (Nat.ceil (((50 : ℚ) - 20) / (4/5))) ∧
    (acclimateRun ⟨25, 50, State.cooling⟩).getLast? =
      some ⟨106/5, 98/5, State.charging⟩ := by
  refine ⟨init_values_25_50, ?_, ?_⟩
  · rw [acclimateRun_25_50_countP, ceil_formula_temp, ceil_formula_charge]
    omega
  · rw [acclimateRun_25_50]
    exact List.getLast?_concat _

/-- Claim C9, confirmed: on a reading with `batteryCharge ≤ 20`,
`acclimate` yields exactly one reading — the input with `state` set to
`charging` — and nothing else. -/
theorem acclimate_low_battery (m : Message) (hb : m.batteryCharge ≤ 20) :
    acclimateYields m = some [{ m with state := State.charging }] := by
  unfold acclimateYields
  rw [if_neg (not_lt.mpr hb)]

/-- Witness for `acclimate_low_battery` at `(15, 10)`. -/
theorem acclimate_low_battery_witness :
    acclimateYields ⟨15, 10, State.start⟩ = some [⟨15, 10, State.charging⟩] :=
  acclimate_low_battery ⟨15, 10, State.start⟩ (by norm_num)

/-- Claim C10, confirmed: no operation of the dispatch loop ever writes
`state = standby`, so from any `standby`-free controller state every
iterate of the loop still satisfies `info.state ≠ standby` — the loop
condition `info.state != 5` never fails and the loop never terminates. -/
theorem no_standby_forever (dr : ℕ → ℚ × ℚ) (s : CState) (h : noStandby s)
    (n : ℕ) :
    noStandby (run dr n s) ∧ (run dr n s).info.state ≠ State.standby := by
  have hr := run_noStandby dr n s h
  exact ⟨hr, hr.1⟩

/-- Witness for `no_standby_forever`: three iterations from the initial
state of `main` under constant draws `(25, 50)`. -/
theorem no_standby_forever_witness :
    noStandby (run (fun _ => (25, 50)) 3
      ⟨⟨0, 0, State.start⟩, ⟨0, 0, State.start⟩, []⟩) ∧
    (run (fun _ => (25, 50)) 3
      ⟨⟨0, 0, State.start⟩, ⟨0, 0, State.start⟩, []⟩).info.state ≠ State.standby :=
  no_standby_forever (fun _ => (25, 50))
    ⟨⟨0, 0, State.start⟩, ⟨0, 0, State.start⟩, []⟩ (by decide) 3

end CoRoutines
